import Mathlib

/-!
Verification of the regular-expression compilation pipeline of this repository:
tokenizer, concatenation inserter, quantifier canonicalizer, shunting-yard
converter, NFA/DFA simulation and subset construction, together with the
caller-level control flow of cmd/auxiliar/functions.go.

The shuntingyard, nfa, dfa and runner packages are referenced by the test file
internal/shuntingyard/shuntinYard_test.go and by cmd/auxiliar/functions.go but
their implementation files are not part of the sources; those components are
modelled from the spec below (each such definition carries a doc comment
starting with Modelled from the spec) and are validated against the exact
expected vectors of the repository test file.
-/

namespace RegexPipeline

/-- Modelled from the spec: the kind of one token of the working expression
(section 3, Symbol).  The class kinds represent the bracketed character-class
delimiters and members, which the tokenizer emits (see the tests
TestFormatRegexWithClasses and TestInterchangeOperatorsClass); `eofMark` is the
optional end-of-input marker of the converter. -/
inductive SymKind where
  | literal
  | epsilon
  | alternation
  | concat
  | star
  | plus
  | optional
  | openGroup
  | closeGroup
  | classOpen
  | classClose
  | classMember
  | eofMark
  deriving DecidableEq, Repr

/-- Modelled from the spec: one token of the working expression, with its kind
and its literal text (one character). -/
structure Symbol where
  kind : SymKind
  value : Char
  deriving DecidableEq, Repr

def concatSym : Symbol := ⟨SymKind.concat, '·'⟩

def altSym : Symbol := ⟨SymKind.alternation, '|'⟩

def starSym : Symbol := ⟨SymKind.star, '*'⟩

def epsSym : Symbol := ⟨SymKind.epsilon, 'ε'⟩

def openSym : Symbol := ⟨SymKind.openGroup, '('⟩

def closeSym : Symbol := ⟨SymKind.closeGroup, ')'⟩

/-- The values of a symbol sequence, as the Go tests read them through
GetValue when comparing against an expected string. -/
def valuesOf (xs : List Symbol) : List Char := xs.map Symbol.value

/-- Modelled from the spec: mapping of one character outside a character class
to its Symbol (section 4.1, single characters map directly to a Symbol of the
matching kind). -/
def symOfChar (c : Char) : Symbol :=
  if c = '(' then openSym
  else if c = ')' then closeSym
  else if c = '|' then altSym
  else if c = '·' then concatSym
  else if c = '*' then starSym
  else if c = '+' then ⟨SymKind.plus, '+'⟩
  else if c = '?' then ⟨SymKind.optional, '?'⟩
  else if c = 'ε' then epsSym
  else ⟨SymKind.literal, c⟩

/-- Modelled from the spec: the tokenizer loop of convertToSymbols.  The Bool
argument records whether the scan is currently inside a bracketed character
class; an unterminated class is a MalformedClass error (`none`).  Per the test
TestFormatRegexWithClasses the class delimiters and members are kept as
distinct symbols at this stage (they are expanded later, by the
canonicalizer). -/
def tokenizeChars : List Char → Bool → Option (List Symbol)
  | [], inClass => if inClass then none else some []
  | c :: rest, true =>
    if c = ']' then (tokenizeChars rest false).map (fun l => ⟨SymKind.classClose, ']'⟩ :: l)
    else (tokenizeChars rest true).map (fun l => ⟨SymKind.classMember, c⟩ :: l)
  | c :: rest, false =>
    if c = '[' then (tokenizeChars rest true).map (fun l => ⟨SymKind.classOpen, '['⟩ :: l)
    else (tokenizeChars rest false).map (fun l => symOfChar c :: l)

/-- Modelled from the spec: convertToSymbols turns a raw expression string into
an ordered sequence of typed symbols, or a tokenization error. -/
def convertToSymbols (s : String) : Option (List Symbol) :=
  tokenizeChars s.toList false

/-- Modelled from the spec (section 4.2): the concatenation rule.  A
concatenation symbol is inserted between symbol a and symbol b exactly when a
is a literal, close-group or postfix-quantifier and b is a literal,
empty-string marker or open-group. -/
def shouldConcat (a b : Symbol) : Bool :=
  (match a.kind with
    | SymKind.literal => true
    | SymKind.closeGroup => true
    | SymKind.star => true
    | SymKind.plus => true
    | SymKind.optional => true
    | _ => false)
  &&
  (match b.kind with
    | SymKind.literal => true
    | SymKind.epsilon => true
    | SymKind.openGroup => true
    | _ => false)

/-- Modelled from the spec: addConcatenationSymbol rewrites the symbol
sequence to make implicit concatenation explicit, inserting a concatenation
symbol between adjacent symbols exactly where `shouldConcat` holds. -/
def addConcatenationSymbol : List Symbol → List Symbol
  | [] => []
  | [a] => [a]
  | a :: b :: rest =>
    if shouldConcat a b then a :: concatSym :: addConcatenationSymbol (b :: rest)
    else a :: addConcatenationSymbol (b :: rest)

/-- Modelled from the spec: the first phase of the quantifier canonicalizer
expands each bracketed character class into an explicit grouped alternation
(the expansion the spec describes, performed here because the repository test
TestFormatRegexWithClasses shows the class symbols still present after
tokenization and concatenation insertion, while TestInterchangeOperatorsClass
shows them expanded in the canonicalizer output).  The first Bool records
whether the scan is inside a class, the second whether the next member is the
first one of its class (members after the first are preceded by an alternation
symbol). -/
def expandClasses : Bool → Bool → List Symbol → List Symbol
  | _, _, [] => []
  | true, first, s :: rest =>
    match s.kind with
    | SymKind.classClose => closeSym :: expandClasses false true rest
    | SymKind.classMember =>
      (if first then [⟨SymKind.literal, s.value⟩]
       else [altSym, ⟨SymKind.literal, s.value⟩]) ++ expandClasses true false rest
    | _ => s :: expandClasses true false rest
  | false, _, s :: rest =>
    match s.kind with
    | SymKind.classOpen => openSym :: expandClasses true true rest
    | _ => s :: expandClasses false true rest

/-- True exactly on the `+` and `?` symbols the canonicalizer removes. -/
def isQuantSym (s : Symbol) : Bool :=
  match s.kind with
  | SymKind.plus => true
  | SymKind.optional => true
  | _ => false

/-- Index of the first `+` or `?` symbol of the sequence, if any (the
left-to-right scan of the canonicalizer, section 4.3). -/
def firstQuantIdx : List Symbol → Option Nat
  | [] => none
  | s :: rest =>
    if isQuantSym s then some 0 else (firstQuantIdx rest).map (fun i => i + 1)

/-- Modelled from the spec: the backward scan of the span lookup.  Starting at
index j with the given nesting depth (the close-group delimiter that started
the scan counts one), it walks leftward, increasing the depth on close-group
symbols and decreasing it on open-group symbols; the open-group symbol that
brings the depth to zero is the matching one. -/
def scanBack (xs : List Symbol) : Nat → Nat → Option Nat
  | 0, depth =>
    match xs.get? 0 with
    | some s =>
      match s.kind with
      | SymKind.openGroup => if depth = 1 then some 0 else none
      | _ => none
    | none => none
  | j + 1, depth =>
    match xs.get? (j + 1) with
    | some s =>
      match s.kind with
      | SymKind.closeGroup => scanBack xs j (depth + 1)
      | SymKind.openGroup => if depth = 1 then some (j + 1) else scanBack xs j (depth - 1)
      | _ => scanBack xs j depth
    | none => none

/-- Index of the open-group delimiter matching the close-group delimiter at
index i, obtained by the backward depth-tracking scan. -/
def findMatchingOpen (xs : List Symbol) (i : Nat) : Option Nat :=
  if i = 0 then none else scanBack xs (i - 1) 1

/-- Modelled from the spec: getSubExpresionIndex returns the span of the
operand ending at index i.  If the symbol at i is a close-group delimiter the
start is the index of the matching open-group delimiter, otherwise the operand
is the single symbol at i; in both cases the returned end is i + 1, one past
the close delimiter — the repository test TestSubExpresion expects the pair
(0, 8) for the close delimiter at index 7. -/
def getSubExpresionIndex (xs : List Symbol) (i : Nat) : Option (Nat × Nat) :=
  match xs.get? i with
  | none => none
  | some s =>
    match s.kind with
    | SymKind.closeGroup => (findMatchingOpen xs i).map (fun st => (st, i + 1))
    | _ => some (i, i + 1)

/-- Whether the symbol at index p is a `+` (as opposed to a `?`). -/
def plusAt (xs : List Symbol) (p : Nat) : Bool :=
  match xs.get? p with
  | some q => (match q.kind with | SymKind.plus => true | _ => false)
  | none => false

/-- Modelled from the spec (section 4.3, steps 2 and 3): replace the
subsequence from st to p with the rewriting of the operand, which is the
subsequence from st to p - 1.  For `+` the replacement is the operand
duplicated, joined by a concatenation symbol, with a trailing star, wrapped in
a new group; for `?` it is the operand, an alternation symbol and the
empty-string marker, wrapped in a new group. -/
def applyRepl (xs : List Symbol) (st p : Nat) : List Symbol :=
  xs.take st ++
    (if plusAt xs p then
      openSym :: ((xs.take p).drop st ++ (concatSym :: ((xs.take p).drop st ++ [starSym, closeSym])))
     else
      openSym :: ((xs.take p).drop st ++ [altSym, epsSym, closeSym]))
  ++ xs.drop (p + 1)

/-- Modelled from the spec: one rewriting step of the canonicalizer at
quantifier position p.  The operand span is obtained from
getSubExpresionIndex at p - 1; a quantifier at position 0, or one whose
preceding symbol is not a close-group delimiter, a literal or the empty-string
marker, is a MalformedQuantifier error (`none`). -/
def rewriteAt (xs : List Symbol) (p : Nat) : Option (List Symbol) :=
  if p = 0 then none
  else
    match xs.get? (p - 1) with
    | none => none
    | some prev =>
      match prev.kind with
      | SymKind.closeGroup =>
        match getSubExpresionIndex xs (p - 1) with
        | none => none
        | some (st, _) => some (applyRepl xs st p)
      | SymKind.literal => some (applyRepl xs (p - 1) p)
      | SymKind.epsilon => some (applyRepl xs (p - 1) p)
      | _ => none

/-- Modelled from the spec: the rewriting loop of the canonicalizer.  Each
iteration rewrites the first remaining `+` or `?`; every step removes exactly
one quantifier and introduces none (the duplicated operand precedes the first
quantifier, so it is quantifier-free), so the number of quantifier symbols of
the input is enough fuel. -/
def canonAux : Nat → List Symbol → Option (List Symbol)
  | 0, xs =>
    match firstQuantIdx xs with
    | none => some xs
    | some _ => none
  | fuel + 1, xs =>
    match firstQuantIdx xs with
    | none => some xs
    | some p =>
      match rewriteAt xs p with
      | none => none
      | some ys => canonAux fuel ys

/-- Modelled from the spec: interchangeOperators, the quantifier
canonicalizer.  It expands the character classes and then eliminates every
`+` and `?` by the rewriting loop. -/
def interchangeOperators (xs : List Symbol) : Option (List Symbol) :=
  canonAux ((expandClasses false true xs).countP isQuantSym) (expandClasses false true xs)

/-- Modelled from the spec (section 4.4): operator precedence, star highest,
then concatenation, then alternation, all left-associative. -/
def precOf (s : Symbol) : Nat :=
  match s.kind with
  | SymKind.star => 3
  | SymKind.plus => 3
  | SymKind.optional => 3
  | SymKind.concat => 2
  | SymKind.alternation => 1
  | _ => 0

/-- Modelled from the spec: pop operators from the stack to the output while
the top of the stack is not an open-group delimiter and has precedence at
least pr; returns the extended output and the remaining stack. -/
def popWhileGE (pr : Nat) : List Symbol → List Symbol → List Symbol × List Symbol
  | [], out => (out, [])
  | t :: ts, out =>
    match t.kind with
    | SymKind.openGroup => (out, t :: ts)
    | _ => if pr ≤ precOf t then popWhileGE pr ts (out ++ [t]) else (out, t :: ts)

/-- Modelled from the spec: on a close-group delimiter, pop operators to the
output until an open-group delimiter is popped and discarded; an empty stack
is an UnmatchedParen error. -/
def popUntilOpen : List Symbol → List Symbol → Option (List Symbol × List Symbol)
  | [], _ => none
  | t :: ts, out =>
    match t.kind with
    | SymKind.openGroup => some (out, ts)
    | _ => popUntilOpen ts (out ++ [t])

/-- True exactly on open-group delimiter symbols. -/
def isOpenGroup (s : Symbol) : Bool :=
  match s.kind with
  | SymKind.openGroup => true
  | _ => false

/-- Modelled from the spec: the shunting-yard loop over the input sequence,
with the operator stack and the output accumulated; at the end of the input
the remaining operators are popped to the output, and a remaining open-group
delimiter is an UnmatchedParen error. -/
def syRun : List Symbol → List Symbol → List Symbol → Option (List Symbol)
  | [], stack, out => if stack.any (fun t => isOpenGroup t) then none else some (out ++ stack)
  | s :: rest, stack, out =>
    match s.kind with
    | SymKind.literal => syRun rest stack (out ++ [s])
    | SymKind.epsilon => syRun rest stack (out ++ [s])
    | SymKind.openGroup => syRun rest (s :: stack) out
    | SymKind.closeGroup =>
      match popUntilOpen stack out with
      | none => none
      | some (out2, stack2) => syRun rest stack2 out2
    | _ =>
      syRun rest (s :: (popWhileGE (precOf s) stack out).2) (popWhileGE (precOf s) stack out).1

/-- Modelled from the spec: shuntingYard converts the canonical infix symbol
sequence to postfix order; when the configuration flag is set an implicit
end-of-input marker is appended to the output, when unset no marker is
appended. -/
def shuntingYard (xs : List Symbol) (appendEof : Bool) : Option (List Symbol) :=
  (syRun xs [] []).map (fun out => if appendEof then out ++ [⟨SymKind.eofMark, '#'⟩] else out)

/-- Modelled from the spec: the compile entry point RegexToPostfix used by
cmd/auxiliar/functions.go, chaining tokenization, quantifier canonicalization,
concatenation insertion and the shunting-yard conversion, in the order the
repository test TestShuntinYard applies them. -/
def regexToPostfixSymbols (line : String) (flag : Bool) : Option (List Symbol) :=
  ((convertToSymbols line).bind interchangeOperators).bind
    (fun v1 => shuntingYard (addConcatenationSymbol v1) flag)

/-- Modelled from the spec (section 3): a nondeterministic finite automaton.
States are identified by natural numbers (the unique identifiers produced by
the construction counter, stateCount many); a transition carries its source,
its symbol (`none` is the reserved epsilon symbol) and one target — a Go
transition with several targets is represented by one entry per target. -/
structure NFA where
  transitions : List (Nat × Option Char × Nat)
  startState : Nat
  endState : Nat
  stateCount : Nat

/-- Targets of the epsilon transitions leaving state s. -/
def epsTargets (ts : List (Nat × Option Char × Nat)) (s : Nat) : List Nat :=
  ts.filterMap (fun t => if t.1 = s ∧ t.2.1 = none then some t.2.2 else none)

/-- One step of the epsilon-closure computation: add every state reachable
from the set by one epsilon transition. -/
def epsStep (ts : List (Nat × Option Char × Nat)) (S : Finset Nat) : Finset Nat :=
  S ∪ S.biUnion (fun s => (epsTargets ts s).toFinset)

/-- Modelled from the spec: the epsilon-closure of a set of states — the
states reachable using only epsilon transitions, obtained by iterating the
one-step extension once per state of the automaton. -/
def epsClosure (n : NFA) (S : Finset Nat) : Finset Nat :=
  (epsStep n.transitions)^[n.stateCount] S

/-- Targets of the transitions leaving state s labelled by the input symbol
c. -/
def symTargets (ts : List (Nat × Option Char × Nat)) (s : Nat) (c : Char) : List Nat :=
  ts.filterMap (fun t => if t.1 = s ∧ t.2.1 = some c then some t.2.2 else none)

/-- The set of states reachable from the set S by one transition labelled
c. -/
def moveSet (ts : List (Nat × Option Char × Nat)) (S : Finset Nat) (c : Char) : Finset Nat :=
  S.biUnion (fun s => (symTargets ts s c).toFinset)

/-- Modelled from the spec (section 4.8, NFA mode): consuming one input
symbol — the epsilon-closure of the union of the symbol-move targets of the
current set. -/
def nfaStep (n : NFA) (S : Finset Nat) (c : Char) : Finset Nat :=
  epsClosure n (moveSet n.transitions S c)

/-- Modelled from the spec: the NFA simulation loop from a current state set.
An empty move set rejects immediately; after all input is consumed the string
is accepted exactly when the set contains the end state. -/
def runNFAFrom (n : NFA) : Finset Nat → List Char → Bool
  | S, [] => decide (n.endState ∈ S)
  | S, c :: rest =>
    if nfaStep n S c = ∅ then false else runNFAFrom n (nfaStep n S c) rest

/-- Modelled from the spec: RunnerNFA, the simulation entry point in NFA
mode, started from the epsilon-closure of the start state. -/
def RunnerNFA (n : NFA) (input : List Char) : Bool :=
  runNFAFrom n (epsClosure n {n.startState}) input

/-- Modelled from the spec (section 4.7): the deterministic automaton
produced by subset construction.  Each DFA state represents a set of NFA
states; the transition map is partial — `none` on a symbol whose resulting
set is empty, so that no transition is created for it (implicit reject). -/
structure DFA where
  initialSet : Finset Nat
  stepFn : Finset Nat → Char → Option (Finset Nat)
  isFinal : Finset Nat → Bool

/-- Modelled from the spec: ConvertNFAtoAFD, the subset construction.  The
initial DFA state is the epsilon-closure of the NFA start state; from a state
set S on symbol c the construction computes the epsilon-closure of the set of
states reachable by c from S, creating no transition when that set is empty;
a DFA state is final exactly when its set contains the NFA end state. -/
def ConvertNFAtoAFD (n : NFA) : DFA where
  initialSet := epsClosure n {n.startState}
  stepFn := fun S c => if nfaStep n S c = ∅ then none else some (nfaStep n S c)
  isFinal := fun S => decide (n.endState ∈ S)

/-- Modelled from the spec (section 4.8, DFA mode): the DFA simulation loop.
A missing transition means immediate rejection; after all input is consumed
the string is accepted exactly when the current state is final. -/
def runDFAFrom (d : DFA) : Option (Finset Nat) → List Char → Bool
  | none, _ => false
  | some S, [] => d.isFinal S
  | some S, c :: rest => runDFAFrom d (d.stepFn S c) rest

/-- Modelled from the spec: the simulation entry point in DFA mode, started
from the initial state. -/
def RunnerDFA (d : DFA) (input : List Char) : Bool :=
  runDFAFrom d (some d.initialSet) input

/-- The accepted-verdict line printed by RunnerSimulation in
cmd/auxiliar/functions.go (the Printf of the then-branch, with the two string
arguments interpolated). -/
def acceptedLine (cadena regex : String) : String :=
  "✅" ++ (" Resultado de la simulación: la cadena " ++ (cadena ++ (" ∈ L(" ++ (regex ++ ")"))))

/-- The rejected-verdict line printed by RunnerSimulation in
cmd/auxiliar/functions.go (the Printf of the else-branch). -/
def rejectedLine (cadena regex : String) : String :=
  "❌" ++ (" Resultado de la simulación: la cadena " ++ (cadena ++ (" ∉ L(" ++ (regex ++ ")"))))

/-- The separator line RunnerSimulation always prints last. -/
def separatorLine : String := "-----------------------------------------"

/-- RunnerSimulation of cmd/auxiliar/functions.go, as the list of lines it
prints.  Its branch tests only the parameter named resultado_nfa (the second
one); the parameter named resultado_dfa (the first one) is never read. -/
def RunnerSimulation (resultado_dfa resultado_nfa : Bool) (cadena regex : String) : List String :=
  (if resultado_nfa then [acceptedLine cadena regex] else [rejectedLine cadena regex])
    ++ [separatorLine]

/-- One iteration of the loop of InteractiveRegexSimulation in
cmd/auxiliar/functions.go, as the list of lines printed after the automata
are built: the NFA render report (an error line when RenderAFN failed, a
success line otherwise), the DFA render report, the echo line, and then the
RunnerSimulation output — which, as at the call site, receives the NFA
simulation result first and the DFA simulation result second.  The render
outcomes and the two simulation results are parameters because rendering and
the runner are external collaborators whose sources are absent. -/
def interactiveIteration (regex cadena : String) (nfaRes dfaRes : Bool)
    (renderNFAErr renderDFAErr : Bool) : List String :=
  (if renderNFAErr then ["Error:"] else ["🌄 Grafo NFA generado exitosamente"])
    ++ (if renderDFAErr then ["Error rendering DFA:"] else ["🌄 Grafo DFA generado exitosamente"])
    ++ ["🤫 Susurro: escogiste la expresión regular " ++ regex ++ " para leer la cadena " ++ cadena]
    ++ RunnerSimulation nfaRes dfaRes cadena regex

/-- The per-expression record ProcessRegexFromFile appends for every line of
the input file.  The AST, NFA and DFA fields of the Go struct are built by
packages whose sources are absent; the record keeps the original expression
and the modelled postfix conversion, which is what the claims about this
function observe. -/
structure RegexProcessResult where
  originalRegex : String
  postfixValues : List Char
  deriving DecidableEq, Repr

/-- The compilation ProcessRegexFromFile performs for one line (the Go code
discards the error results of RegexToPostfix). -/
def processLine (line : String) : RegexProcessResult :=
  ⟨line, ((regexToPostfixSymbols line false).map valuesOf).getD []⟩

/-- The render-failure reports ProcessRegexFromFile prints for the line of
index i, given which render calls fail. -/
def renderMsgs (i : Nat) (eN eD : Nat → Bool) : List String :=
  (if eN i then ["Error renderizado de NFA:"] else [])
    ++ (if eD i then ["Error rendereizado de DFA:"] else [])

/-- The processing loop of ProcessRegexFromFile over the lines read from the
file, from line index i: every line is compiled, its render reports are
printed, and its result record is appended unconditionally. -/
def processLines (eN eD : Nat → Bool) : Nat → List String → List RegexProcessResult × List String
  | _, [] => ([], [])
  | i, line :: rest =>
    (processLine line :: (processLines eN eD (i + 1) rest).1,
     renderMsgs i eN eD ++ (processLines eN eD (i + 1) rest).2)

/-- ProcessRegexFromFile of cmd/auxiliar/functions.go, parameterized by the
lines read from the file and by which external render calls fail; it returns
the list of result records and the list of printed report lines. -/
def ProcessRegexFromFile (lines : List String) (eN eD : Nat → Bool) :
    List RegexProcessResult × List String :=
  processLines eN eD 0 lines

/-!
Theorems.  First the supporting lemmas, then one theorem per claim about the
pipeline, each preceded by a doc comment naming the claim.
-/

/-- The DFA simulation from a live state set agrees with the NFA simulation
from the same set: the subset-construction transition map is exactly the NFA
one-symbol step, with the empty result turned into a missing transition, and
a missing transition and an empty state set reject in the same way. -/
theorem runDFAFrom_eq_runNFAFrom (n : NFA) :
    ∀ (input : List Char) (S : Finset Nat),
      runDFAFrom (ConvertNFAtoAFD n) (some S) input = runNFAFrom n S input := by
  intro input
  induction input with
  | nil => intro S; rfl
  | cons c rest ih =>
    intro S
    have hstep : (ConvertNFAtoAFD n).stepFn S c
        = if nfaStep n S c = ∅ then none else some (nfaStep n S c) := rfl
    by_cases h : nfaStep n S c = ∅
    · simp [runDFAFrom, runNFAFrom, hstep, h]
    · rw [show runDFAFrom (ConvertNFAtoAFD n) (some S) (c :: rest)
            = runDFAFrom (ConvertNFAtoAFD n) ((ConvertNFAtoAFD n).stepFn S c) rest from rfl,
          hstep, if_neg h,
          show runNFAFrom n S (c :: rest)
            = if nfaStep n S c = ∅ then false else runNFAFrom n (nfaStep n S c) rest from rfl,
          if_neg h]
      exact ih (nfaStep n S c)

/-- The results list of the processing loop is one full record per input
line, independent of which render calls failed. -/
theorem processLines_fst (eN eD : Nat → Bool) :
    ∀ (i : Nat) (lines : List String),
      (processLines eN eD i lines).1 = lines.map processLine := by
  intro i lines
  induction lines generalizing i with
  | nil => rfl
  | cons line rest ih => simp [processLines, ih]

/-- A sequence with no first quantifier index has no quantifier symbols at
all. -/
theorem firstQuantIdx_none_countP :
    ∀ xs : List Symbol, firstQuantIdx xs = none → xs.countP isQuantSym = 0 := by
  intro xs
  induction xs with
  | nil => intro _; rfl
  | cons s rest ih =>
    intro h
    by_cases hq : isQuantSym s
    · simp [firstQuantIdx, hq] at h
    · simp only [firstQuantIdx, hq, if_false, Bool.false_eq_true] at h
      rw [List.countP_cons]
      simp [hq, ih (Option.map_eq_none.mp h)]

/-- Whenever the rewriting loop of the canonicalizer returns a sequence, that
sequence contains no quantifier symbols: the loop only stops successfully on
a sequence whose first-quantifier search fails. -/
theorem canonAux_noQuant :
    ∀ (fuel : Nat) (xs ys : List Symbol),
      canonAux fuel xs = some ys → ys.countP isQuantSym = 0 := by
  intro fuel
  induction fuel with
  | zero =>
    intro xs ys h
    cases hf : firstQuantIdx xs with
    | none =>
      simp [canonAux, hf] at h
      rw [← h]
      exact firstQuantIdx_none_countP xs hf
    | some p => simp [canonAux, hf] at h
  | succ fuel ih =>
    intro xs ys h
    cases hf : firstQuantIdx xs with
    | none =>
      simp [canonAux, hf] at h
      rw [← h]
      exact firstQuantIdx_none_countP xs hf
    | some p =>
      cases hr : rewriteAt xs p with
      | none => simp [canonAux, hf, hr] at h
      | some zs =>
        simp only [canonAux, hf, hr] at h
        exact ih zs ys h

/-- The first character of the accepted-verdict line. -/
theorem acceptedLine_head (c r : String) : (acceptedLine c r).data.head? = some '✅' := by
  cases c with
  | mk cd =>
    cases r with
    | mk rd => rfl

/-- The first character of the rejected-verdict line. -/
theorem rejectedLine_head (c r : String) : (rejectedLine c r).data.head? = some '❌' := by
  cases c with
  | mk cd =>
    cases r with
    | mk rd => rfl

/-- C1: for every nondeterministic automaton — in particular the one built
for each compiled regular expression — the deterministic automaton produced
by the subset construction ConvertNFAtoAFD accepts exactly the same input
strings: simulating the DFA and simulating the NFA yield the same boolean
result on every input string (hence on every string of length at most 5). -/
theorem determinization_equivalence (n : NFA) (input : List Char) :
    RunnerDFA (ConvertNFAtoAFD n) input = RunnerNFA n input :=
  runDFAFrom_eq_runNFAFrom n input (epsClosure n {n.startState})

/-- C2: running the shunting-yard converter with the end-of-input-marker flag
unset on the symbol sequence of the expression obtained from quantifier
canonicalization and concatenation insertion applied to the tokens of
the given expression yields exactly the postfix sequence whose values read
as shown, with no marker appended. -/
theorem end_to_end_postfix_conversion :
    (regexToPostfixSymbols "(aa|b)|abb*" false).map valuesOf
      = some "aa·b|ab·b*·|".toList := by
  decide

/-- C3: the canonicalizer rewrites a `+` whose operand is the immediately
preceding group into the operand duplicated, joined by a concatenation
symbol, with a trailing star, wrapped in a new group. -/
theorem plus_canonicalization :
    (((convertToSymbols "(a|(c)*)+").map addConcatenationSymbol).bind
        interchangeOperators).map valuesOf
      = some "((a|(c)*)·(a|(c)*)*)".toList := by
  decide

/-- C4: the canonicalizer rewrites a `?` whose operand is the immediately
preceding group into the operand, an alternation symbol and the empty-string
marker, wrapped in a new group. -/
theorem optional_canonicalization :
    (((convertToSymbols "(a|(c)*)?").map addConcatenationSymbol).bind
        interchangeOperators).map valuesOf
      = some "((a|(c)*)|ε)".toList := by
  decide

/-- C5: the concatenation inserter makes the implicit concatenations of the
two test expressions explicit, preserving the already-explicit one and
inserting nothing adjacent to the alternation symbol or the group
delimiters. -/
theorem concatenation_insertion :
    ((convertToSymbols "c(aa|b)*|b·w").map (fun t => valuesOf (addConcatenationSymbol t))
      = some "c·(a·a|b)*|b·w".toList)
    ∧ ((convertToSymbols "(a|b?c+|d*e|fgh|i|j)").map
          (fun t => valuesOf (addConcatenationSymbol t))
      = some "(a|b?·c+|d*·e|f·g·h|i|j)".toList) := by
  constructor
  · decide
  · decide

/-- C6 counterexample: the tokenizer does not expand a bracketed character
class.  Its output for the first expression reads back exactly as the input,
class brackets included, and not as the expanded grouped alternation; for the
second expression the concatenation inserter — a stage after tokenization —
still receives a class-open symbol, and its output is the one the repository
test TestFormatRegexWithClasses expects, with the class unexpanded. -/
theorem class_expansion_counterexample :
    ((convertToSymbols "a([abc1234])?|j").map valuesOf = some "a([abc1234])?|j".toList)
    ∧ ¬ ((convertToSymbols "a([abc1234])?|j").map valuesOf
          = some "a((a|b|c|1|2|3|4))?|j".toList)
    ∧ ((convertToSymbols "0([abc]|b)0*").map (fun t => valuesOf (addConcatenationSymbol t))
        = some "0·([abc]|b)·0*".toList)
    ∧ ((convertToSymbols "0([abc]|b)0*").map
        (fun t => t.countP (fun s => decide (s.kind = SymKind.classOpen))) = some 1) := by
  refine ⟨by decide, by decide, by decide, by decide⟩

/-- C6 amended: the class is expanded into a grouped alternation by the
quantifier canonicalizer, before quantifier rewriting, so the canonicalizer
output already contains the expanded group, wrapped by the `?` rewriting. -/
theorem class_expansion_amended :
    (((convertToSymbols "a([abc1234])?|j").map addConcatenationSymbol).bind
        interchangeOperators).map valuesOf
      = some "a·(((a|b|c|1|2|3|4))|ε)|j".toList := by
  decide

/-- C7 counterexample: for the concatenation-inserted sequence of the test
expression, the span lookup at the close delimiter of the group preceding the
`+` does not return the close-delimiter index 7 as end. -/
theorem subexpression_span_counterexample :
    ¬ (((convertToSymbols "(a|(c)*)+a").map addConcatenationSymbol).bind
        (fun ys => getSubExpresionIndex ys 7) = some (0, 7)) := by
  decide

/-- C7 amended: the span lookup returns the exact index of the enclosing
group open delimiter as start, and one past the index of the close delimiter
— the position of the `+` itself — as end: the pair (0, 8), exactly as the
repository test TestSubExpresion expects, with the open delimiter at index 0,
the close delimiter at index 7 and the `+` at index 8. -/
theorem subexpression_span_amended :
    (((convertToSymbols "(a|(c)*)+a").map addConcatenationSymbol).bind
        (fun ys => getSubExpresionIndex ys 7) = some (0, 8))
    ∧ (((convertToSymbols "(a|(c)*)+a").map addConcatenationSymbol).map
        (fun ys => ((ys.get? 0).map Symbol.kind, (ys.get? 7).map Symbol.kind,
          (ys.get? 8).map Symbol.kind))
      = some (some SymKind.openGroup, some SymKind.closeGroup, some SymKind.plus)) := by
  refine ⟨by decide, by decide⟩

/-- C8: whatever symbol sequence the quantifier canonicalizer is given, when
it returns a sequence that sequence contains no `+` and no `?` symbol. -/
theorem canonicalizer_removes_quantifiers (xs ys : List Symbol)
    (h : interchangeOperators xs = some ys) : ys.countP isQuantSym = 0 :=
  canonAux_noQuant _ _ _ h

/-- Witness for C8 at the concrete input sequence for the expression a+. -/
theorem canonicalizer_removes_quantifiers_witness :
    ([openSym, ⟨SymKind.literal, 'a'⟩, concatSym, ⟨SymKind.literal, 'a'⟩, starSym, closeSym]
      : List Symbol).countP isQuantSym = 0 :=
  canonicalizer_removes_quantifiers
    [⟨SymKind.literal, 'a'⟩, ⟨SymKind.plus, '+'⟩] _ (by decide)

/-- C9: rendering failures are never fatal.  ProcessRegexFromFile appends the
full per-expression result record for every input line and continues with the
remaining lines whatever render calls fail — its results list is exactly the
per-line compilation, independent of the render outcomes — and the
interactive loop still reaches the simulation of the automata against the
user input: after the three report lines its output is exactly the
RunnerSimulation output, for every combination of render failures. -/
theorem rendering_failures_nonfatal :
    (∀ (lines : List String) (eN eD : Nat → Bool),
      (ProcessRegexFromFile lines eN eD).1 = lines.map processLine)
    ∧ (∀ (regex cadena : String) (nfaRes dfaRes renderNFAErr renderDFAErr : Bool),
      (interactiveIteration regex cadena nfaRes dfaRes renderNFAErr renderDFAErr).drop 3
        = RunnerSimulation nfaRes dfaRes cadena regex) := by
  constructor
  · intro lines eN eD
    exact processLines_fst eN eD 0 lines
  · intro regex cadena nr dr e1 e2
    cases e1 <;> cases e2 <;> rfl

/-- C10: the verdict RunnerSimulation prints depends only on its second
argument — the one bound to the DFA simulation result at the call site — and
never on its first (the unused parameter named resultado_dfa): two runs
differing only in the first argument print identical output, runs with the
second argument true and false print the accepted and the rejected message
respectively, and those two outputs always differ. -/
theorem verdict_depends_only_on_second_argument :
    (∀ (a b v : Bool) (cadena regex : String),
        RunnerSimulation a v cadena regex = RunnerSimulation b v cadena regex)
    ∧ (∀ (a : Bool) (cadena regex : String),
        RunnerSimulation a true cadena regex = [acceptedLine cadena regex, separatorLine]
          ∧ RunnerSimulation a false cadena regex = [rejectedLine cadena regex, separatorLine])
    ∧ (∀ (a b : Bool) (cadena regex : String),
        RunnerSimulation a true cadena regex ≠ RunnerSimulation b false cadena regex) := by
  refine ⟨fun a b v c r => rfl, fun a c r => ⟨rfl, rfl⟩, ?_⟩
  intro a b c r h
  simp only [RunnerSimulation, if_pos, if_neg, List.singleton_append, List.cons.injEq,
    Bool.false_eq_true, if_false, if_true, ite_true, ite_false] at h
  have h3 : (acceptedLine c r).data.head? = (rejectedLine c r).data.head? := by
    rw [h.1]
  rw [acceptedLine_head, rejectedLine_head] at h3
  exact absurd h3 (by decide)

end RegexPipeline
